import Mathlib

/-!
Verification of the mode concurrency engine of Matrosov.TrafficLight
(src/RaspberryPi.Server/main.py), as a shallow embedding in Lean 4.

Conventions of the embedding:
* Python's `Lights(Enum)` becomes the inductive `Lights` with its numeric
  `value` and a validated decoder `Lights.ofValue?` (Python's `Lights(v)`
  constructor, which raises `ValueError` outside the enum's value range,
  becomes the `none` branch).
* Side effects on the GPIO output (`TrafficLight.set`) are reified: a call
  records the three raw channel writes; the external gpiozero LED treats a
  written integer as lit exactly when it is nonzero (Python truthiness).
* Each stateful object becomes a state structure plus explicit step
  functions, one per source method or loop body; an uncaught Python
  exception in the modelled code is a `none` result.
-/

/-- The `Lights` enum (main.py lines 9-17): a 3-bit bitmask,
bit2 = red, bit1 = amber, bit0 = green. -/
inductive Lights where
  | NONE
  | GREEN
  | AMBER
  | AMBER_GREEN
  | RED
  | RED_GREEN
  | RED_AMBER
  | ALL
  deriving DecidableEq

/-- Numeric value of each enum member, as assigned in main.py lines 10-17. -/
def Lights.value : Lights → Nat
  | .NONE => 0x00
  | .GREEN => 0x01
  | .AMBER => 0x02
  | .AMBER_GREEN => 0x03
  | .RED => 0x04
  | .RED_GREEN => 0x05
  | .RED_AMBER => 0x06
  | .ALL => 0x07

/-- Python's `Lights(v)` enum lookup: `some` member with that value,
`none` when `v` matches no member (Python raises `ValueError`). -/
def Lights.ofValue? : Nat → Option Lights
  | 0 => some .NONE
  | 1 => some .GREEN
  | 2 => some .AMBER
  | 3 => some .AMBER_GREEN
  | 4 => some .RED
  | 5 => some .RED_GREEN
  | 6 => some .RED_AMBER
  | 7 => some .ALL
  | _ => none

theorem Lights.ofValue?_of_le (b : Nat) (hb : b ≤ 7) :
    ∃ l : Lights, Lights.ofValue? b = some l ∧ l.value = b := by
  interval_cases b <;> exact ⟨_, rfl, rfl⟩

theorem Lights.ofValue?_of_gt (b : Nat) (hb : 7 < b) :
    Lights.ofValue? b = none := by
  obtain ⟨k, rfl⟩ : ∃ k, b = k + 8 := ⟨b - 8, by omega⟩
  rfl

/-- The three raw integers one `TrafficLight.set` call writes to the LED
`value` attributes (main.py lines 27-29). -/
structure ChannelWrites where
  red : Nat
  amber : Nat
  green : Nat
  deriving DecidableEq

/-- `TrafficLight.set` (main.py lines 25-29): masks the enum value with
0x04 / 0x02 / 0x01 and writes each result to the matching channel. -/
def TrafficLight.set (lights : Lights) : ChannelWrites :=
  let v := lights.value
  { red := v &&& 0x04, amber := v &&& 0x02, green := v &&& 0x01 }

/-- gpiozero's LED `value` setter drives the pin from the truthiness of the
assigned integer: a channel is lit exactly when the written value is
nonzero. -/
def lit (written : Nat) : Bool := written != 0

/-- C6: For every integer v in [0,7], decoding v into a LightState and
re-encoding it yields v (round-trip); for every integer v outside [0,7],
decoding fails (never produces a LightState value). -/
theorem C6_decode_encode_roundtrip (v : Nat) :
    (v ≤ 7 → (Lights.ofValue? v).map Lights.value = some v) ∧
    (7 < v → Lights.ofValue? v = none) := by
  constructor
  · intro hv
    obtain ⟨l, hl, hval⟩ := Lights.ofValue?_of_le v hv
    rw [hl, Option.map_some', hval]
  · exact Lights.ofValue?_of_gt v

theorem C6_decode_encode_roundtrip_witness :
    ((5 : Nat) ≤ 7 ∧ (Lights.ofValue? 5).map Lights.value = some 5) ∧
    (7 < (9 : Nat) ∧ Lights.ofValue? 9 = none) :=
  ⟨⟨by decide, (C6_decode_encode_roundtrip 5).1 (by decide)⟩,
   ⟨by decide, (C6_decode_encode_roundtrip 9).2 (by decide)⟩⟩

/-- C7: For every LightState with encoded value v, `TrafficLight.set` drives
the three channels by bit extraction: red is lit iff v &&& 0b100 is nonzero
(bit 2), amber iff v &&& 0b010 is nonzero (bit 1), green iff v &&& 0b001 is
nonzero (bit 0). -/
theorem C7_set_bit_extraction (l : Lights) :
    (lit (TrafficLight.set l).red = true ↔ l.value &&& 0x04 ≠ 0) ∧
    (lit (TrafficLight.set l).amber = true ↔ l.value &&& 0x02 ≠ 0) ∧
    (lit (TrafficLight.set l).green = true ↔ l.value &&& 0x01 ≠ 0) ∧
    lit (TrafficLight.set l).red = l.value.testBit 2 ∧
    lit (TrafficLight.set l).amber = l.value.testBit 1 ∧
    lit (TrafficLight.set l).green = l.value.testBit 0 := by
  cases l <;> refine ⟨by decide, by decide, by decide, by decide, by decide, by decide⟩

/-- Enter/exit call counters of `ModesController` (main.py lines 107-120):
`i` is the current mode index `self._i`; `enters k` / `exits k` count how
often `modes[k].enter()` / `modes[k].exit()` have been called. -/
structure MCState where
  i : Nat
  enters : Nat → Nat
  exits : Nat → Nat

/-- Record one more call on the counter of mode `k`. -/
def bumpCount (f : Nat → Nat) (k : Nat) : Nat → Nat :=
  fun j => if j = k then f j + 1 else f j

/-- `ModesController.__init__` (main.py line 109): index starts at 0, no
mode has been entered or exited yet. -/
def MCState.init : MCState :=
  { i := 0, enters := fun _ => 0, exits := fun _ => 0 }

/-- `ModesController.start` (main.py lines 119-120): calls
`modes[self._i].enter()`. -/
def ModesController.start (s : MCState) : MCState :=
  { s with enters := bumpCount s.enters s.i }

/-- `switch_mode` (main.py lines 113-116), the button callback, run to
completion as one event: `modes[i].exit()`, then `i = (i+1) % N`, then
`modes[i].enter()`, in that order. -/
def ModesController.switch_mode (N : Nat) (s : MCState) : MCState :=
  let afterExit : MCState := { s with exits := bumpCount s.exits s.i }
  let newI := (afterExit.i + 1) % N
  { i := newI, enters := bumpCount afterExit.enters newI, exits := afterExit.exits }

/-- The per-index successor `(i+1) % N` that `switch_mode` applies to
`self._i` (main.py line 115). -/
def ModesController.next_i (N i : Nat) : Nat := (i + 1) % N

theorem ModesController.next_i_iterate (N : Nat) (k : Nat) :
    (ModesController.next_i N)^[k] 0 = k % N := by
  induction k with
  | zero => simp
  | succ k ih =>
      rw [Function.iterate_succ_apply', ih, ModesController.next_i]
      simp [Nat.add_mod]

/-- An enter/exit count table that is one ahead exactly at index `i` has
exactly one index whose enters strictly exceed its exits. -/
theorem one_active_of_counts (i : Nat) (e x : Nat → Nat)
    (hinv : ∀ k, e k = x k + (if k = i then 1 else 0)) :
    ∃! k, x k < e k := by
  refine ⟨i, ?_, ?_⟩
  · have h := hinv i
    rw [if_pos rfl] at h
    omega
  · intro k hk
    have h := hinv k
    by_contra hne
    rw [if_neg hne] at h
    omega

theorem ModesController.switch_mode_preserves (N : Nat) (hN : 1 ≤ N) (s : MCState)
    (_hi : s.i < N)
    (hinv : ∀ k, s.enters k = s.exits k + (if k = s.i then 1 else 0)) :
    (ModesController.switch_mode N s).i < N ∧
    ∀ k, (ModesController.switch_mode N s).enters k =
      (ModesController.switch_mode N s).exits k +
        (if k = (ModesController.switch_mode N s).i then 1 else 0) := by
  constructor
  · exact Nat.mod_lt _ hN
  · intro k
    have hk := hinv k
    simp only [ModesController.switch_mode, bumpCount]
    split_ifs at hk ⊢ <;> omega

/-- C1: After `ModesController.start()` and any number of completed
`switch_mode` events, every mode's enter count exceeds its exit count by one
exactly at the current index and by zero elsewhere; hence exactly one mode
is active (entered without a matching exit).  Each `switch_mode` runs
`exit()` on the current mode, then updates the index, then `enter()` on the
new mode, as its definition records. -/
theorem C1_exactly_one_mode_active (N n : Nat) (hN : 1 ≤ N) :
    ((ModesController.switch_mode N)^[n] (ModesController.start MCState.init)).i < N ∧
    (∀ k, ((ModesController.switch_mode N)^[n] (ModesController.start MCState.init)).enters k =
      ((ModesController.switch_mode N)^[n] (ModesController.start MCState.init)).exits k +
        (if k = ((ModesController.switch_mode N)^[n] (ModesController.start MCState.init)).i
          then 1 else 0)) ∧
    (∃! k, ((ModesController.switch_mode N)^[n] (ModesController.start MCState.init)).exits k <
      ((ModesController.switch_mode N)^[n] (ModesController.start MCState.init)).enters k) := by
  have main : ((ModesController.switch_mode N)^[n] (ModesController.start MCState.init)).i < N ∧
      ∀ k, ((ModesController.switch_mode N)^[n] (ModesController.start MCState.init)).enters k =
        ((ModesController.switch_mode N)^[n] (ModesController.start MCState.init)).exits k +
          (if k = ((ModesController.switch_mode N)^[n] (ModesController.start MCState.init)).i
            then 1 else 0) := by
    induction n with
    | zero =>
        refine ⟨hN, fun k => ?_⟩
        simp only [Function.iterate_zero_apply, ModesController.start, MCState.init, bumpCount]
        split_ifs <;> omega
    | succ n ih =>
        rw [Function.iterate_succ_apply']
        exact ModesController.switch_mode_preserves N hN _ ih.1 ih.2
  exact ⟨main.1, main.2, one_active_of_counts _ _ _ main.2⟩

theorem C1_exactly_one_mode_active_witness :
    ((ModesController.switch_mode 2)^[3] (ModesController.start MCState.init)).i < 2 ∧
    (∀ k, ((ModesController.switch_mode 2)^[3] (ModesController.start MCState.init)).enters k =
      ((ModesController.switch_mode 2)^[3] (ModesController.start MCState.init)).exits k +
        (if k = ((ModesController.switch_mode 2)^[3] (ModesController.start MCState.init)).i
          then 1 else 0)) ∧
    (∃! k, ((ModesController.switch_mode 2)^[3] (ModesController.start MCState.init)).exits k <
      ((ModesController.switch_mode 2)^[3] (ModesController.start MCState.init)).enters k) :=
  C1_exactly_one_mode_active 2 3 (by decide)

/-- C2: With N modes and index starting at 0, the index after k advances is
k % N, so it always stays below N; the indices seen after 0, 1, ..., N-1
advances are exactly 0, 1, ..., N-1 in order (every index once); and N
advances return the index to 0. -/
theorem C2_cycle_visits_all_in_order (N : Nat) (hN : 1 ≤ N) :
    (∀ k, (ModesController.next_i N)^[k] 0 = k % N) ∧
    (∀ k, (ModesController.next_i N)^[k] 0 < N) ∧
    ((List.range N).map (fun k => (ModesController.next_i N)^[k] 0) = List.range N) ∧
    (ModesController.next_i N)^[N] 0 = 0 := by
  refine ⟨ModesController.next_i_iterate N, ?_, ?_, ?_⟩
  · intro k
    rw [ModesController.next_i_iterate N]
    exact Nat.mod_lt _ hN
  · have : ∀ k ∈ List.range N, (ModesController.next_i N)^[k] 0 = id k := by
      intro k hk
      rw [ModesController.next_i_iterate N, id]
      exact Nat.mod_eq_of_lt (List.mem_range.mp hk)
    rw [List.map_congr_left this, List.map_id]
  · rw [ModesController.next_i_iterate N, Nat.mod_self]

theorem C2_cycle_visits_all_in_order_witness :
    ((List.range 3).map (fun k => (ModesController.next_i 3)^[k] 0) = List.range 3) ∧
    (ModesController.next_i 3)^[3] 0 = 0 :=
  ⟨(C2_cycle_visits_all_in_order 3 (by decide)).2.2.1,
   (C2_cycle_visits_all_in_order 3 (by decide)).2.2.2⟩

/-- The mutable state of one `UdpListenerMode` (main.py lines 62-105):
`lights` is `self._lights` (last-known state), `is_active` is
`self._is_active`, `on_updated` is the `self._on_updated` event flag, and
`out` reifies the sequence of `self._traffic_light.set` calls this mode has
made. -/
structure UdpState where
  lights : Lights
  is_active : Bool
  on_updated : Bool
  out : List Lights
  deriving DecidableEq

/-- `UdpListenerMode.__init__` (main.py lines 63-69): last-known state
starts at AMBER, the mode starts inactive, the updated event starts clear,
and nothing has been written to the output yet. -/
def UdpListenerMode.init : UdpState :=
  { lights := .AMBER, is_active := false, on_updated := false, out := [] }

/-- `UdpListenerMode._update` (main.py lines 92-96): store the new
last-known state unconditionally, then call `set` on it only when
`self._is_active` holds. -/
def UdpListenerMode._update (s : UdpState) (lights : Lights) : UdpState :=
  { s with
    lights := lights
    out := if s.is_active then s.out ++ [lights] else s.out }

/-- One iteration of the receiver loop (main.py lines 78-82) on the
received datagram `msg`, a list of byte values: `msg[0]` on an empty bytes
object raises an uncaught IndexError (`none`); a first byte between
`Lights.NONE.value` and `Lights.ALL.value` is decoded and stored via
`_update` and the updated event is set; any other first byte leaves the
state untouched. -/
def UdpListenerMode.listener_step (s : UdpState) : List Nat → Option UdpState
  | [] => none
  | b :: _ =>
      if Lights.NONE.value ≤ b ∧ b ≤ Lights.ALL.value then
        match Lights.ofValue? b with
        | some l => some { UdpListenerMode._update s l with on_updated := true }
        | none => none
      else
        some s

/-- `UdpListenerMode.enter` (main.py lines 98-101): push the current
last-known state to the output, then set the activation flag. -/
def UdpListenerMode.enter (s : UdpState) : UdpState :=
  { s with out := s.out ++ [s.lights], is_active := true }

/-- `UdpListenerMode.exit` (main.py lines 103-105): clear the activation
flag. -/
def UdpListenerMode.exit (s : UdpState) : UdpState :=
  { s with is_active := false }

/-- C3 as stated is false at the empty datagram: the claim says an empty
datagram is silently discarded with the state unchanged and no error
surfaced, but `msg[0]` (main.py line 80) raises an uncaught IndexError on an
empty bytes object, so the receiver step errors out (`none`) instead of
returning the unchanged state. -/
theorem C3_empty_datagram_counterexample :
    UdpListenerMode.listener_step UdpListenerMode.init [] = none ∧
    UdpListenerMode.listener_step UdpListenerMode.init [] ≠ some UdpListenerMode.init := by
  decide

/-- C3 amended: for a nonempty datagram whose first byte b is in [0,7], the
receiver decodes b to the LightState with that value, stores it as the
last-known state (writing it through when active), and raises the updated
signal; for a nonempty datagram with any other first byte the state is
unchanged and no error is surfaced; an empty datagram raises an uncaught
IndexError (modelled as `none`) rather than being silently discarded. -/
theorem C3_receiver_step (s : UdpState) (b : Nat) (rest : List Nat) :
    (b ≤ 7 → ∃ l : Lights, Lights.ofValue? b = some l ∧ l.value = b ∧
      UdpListenerMode.listener_step s (b :: rest) =
        some { UdpListenerMode._update s l with on_updated := true }) ∧
    (7 < b → UdpListenerMode.listener_step s (b :: rest) = some s) ∧
    UdpListenerMode.listener_step s [] = none := by
  refine ⟨?_, ?_, rfl⟩
  · intro hb
    obtain ⟨l, hl, hv⟩ := Lights.ofValue?_of_le b hb
    refine ⟨l, hl, hv, ?_⟩
    simp only [UdpListenerMode.listener_step]
    rw [if_pos (show Lights.NONE.value ≤ b ∧ b ≤ Lights.ALL.value from ⟨Nat.zero_le b, hb⟩),
      hl]
  · intro hb
    simp only [UdpListenerMode.listener_step]
    rw [if_neg]
    intro hc
    exact absurd hc.2 (Nat.not_le.mpr hb)

theorem C3_receiver_step_witness :
    ((5 : Nat) ≤ 7 ∧ ∃ l : Lights, Lights.ofValue? 5 = some l ∧ l.value = 5 ∧
      UdpListenerMode.listener_step UdpListenerMode.init [5] =
        some { UdpListenerMode._update UdpListenerMode.init l with on_updated := true }) ∧
    (7 < (9 : Nat) ∧
      UdpListenerMode.listener_step UdpListenerMode.init [9] = some UdpListenerMode.init) :=
  ⟨⟨by decide, (C3_receiver_step UdpListenerMode.init 5 []).1 (by decide)⟩,
   ⟨by decide, (C3_receiver_step UdpListenerMode.init 9 []).2.1 (by decide)⟩⟩

/-- C5: `_update` stores the new last-known state regardless of activation
but extends the output only when the activation flag is true; consequently,
after a valid value l is received while inactive, `enter()` immediately
writes l to the output without a new datagram. -/
theorem C5_output_gating_and_reentry (s : UdpState) (l : Lights) :
    (UdpListenerMode._update s l).lights = l ∧
    (s.is_active = true → (UdpListenerMode._update s l).out = s.out ++ [l]) ∧
    (s.is_active = false → (UdpListenerMode._update s l).out = s.out) ∧
    (s.is_active = false →
      (UdpListenerMode.enter (UdpListenerMode._update s l)).out = s.out ++ [l] ∧
      (UdpListenerMode.enter (UdpListenerMode._update s l)).is_active = true) := by
  refine ⟨rfl, ?_, ?_, ?_⟩
  · intro h
    simp [UdpListenerMode._update, h]
  · intro h
    simp [UdpListenerMode._update, h]
  · intro h
    simp [UdpListenerMode.enter, UdpListenerMode._update, h]

theorem C5_output_gating_and_reentry_witness :
    UdpListenerMode.init.is_active = false ∧
    (UdpListenerMode._update UdpListenerMode.init Lights.RED_GREEN).out =
      UdpListenerMode.init.out ∧
    (UdpListenerMode.enter (UdpListenerMode._update UdpListenerMode.init Lights.RED_GREEN)).out =
      UdpListenerMode.init.out ++ [Lights.RED_GREEN] :=
  ⟨rfl,
   (C5_output_gating_and_reentry UdpListenerMode.init Lights.RED_GREEN).2.2.1 rfl,
   ((C5_output_gating_and_reentry UdpListenerMode.init Lights.RED_GREEN).2.2.2 rfl).1⟩

/-- Position of the timeout-monitor thread (main.py lines 84-90) at the top
of a wait: `bounded` is the wait with `self._update_timeout` at line 86,
`blocked` is the indefinite wait at line 90 after a fallback. -/
inductive MonPhase where
  | bounded
  | blocked
  deriving DecidableEq

/-- Outcome of one wait call of the monitor thread: the updated event was
raised (`signaled`), or the wait window elapsed first (`timedOut`). -/
inductive MonEvent where
  | signaled
  | timedOut
  deriving DecidableEq

/-- One iteration of the timeout-monitor loop (main.py lines 85-90): a
bounded wait that is signaled consumes (clears) the event and loops; a
bounded wait that times out runs `_update(Lights.AMBER)` and moves to the
indefinite wait; the indefinite wait leaves the event set and returns to the
bounded wait.  The indefinite wait cannot time out; that case is ruled out
by `MonValidTrace` and given a harmless value only for totality. -/
def UdpListenerMode.monitor_step (s : UdpState) (p : MonPhase) (e : MonEvent) :
    UdpState × MonPhase :=
  match p, e with
  | .bounded, .signaled => ({ s with on_updated := false }, .bounded)
  | .bounded, .timedOut => (UdpListenerMode._update s Lights.AMBER, .blocked)
  | .blocked, .signaled => (s, .bounded)
  | .blocked, .timedOut => (s, .blocked)

/-- Run the monitor over a list of wait outcomes. -/
def UdpListenerMode.monitor_run (s : UdpState) (p : MonPhase) :
    List MonEvent → UdpState × MonPhase
  | [] => (s, p)
  | e :: es =>
      let sp := UdpListenerMode.monitor_step s p e
      UdpListenerMode.monitor_run sp.1 sp.2 es

/-- The monitor's state after its first `n` wait outcomes, starting (as the
thread does) at the bounded wait. -/
def monStateAfter (s0 : UdpState) (es : List MonEvent) (n : Nat) : UdpState :=
  (UdpListenerMode.monitor_run s0 .bounded (es.take n)).1

/-- The monitor's wait position after its first `n` wait outcomes. -/
def monPhaseAfter (s0 : UdpState) (es : List MonEvent) (n : Nat) : MonPhase :=
  (UdpListenerMode.monitor_run s0 .bounded (es.take n)).2

/-- A physically possible outcome trace: the indefinite wait at main.py
line 90 has no timeout, so a `timedOut` outcome can only occur at the
bounded wait. -/
def MonValidTrace (s0 : UdpState) (es : List MonEvent) : Prop :=
  ∀ n, n < es.length → monPhaseAfter s0 es n = .blocked → es[n]? ≠ some .timedOut

/-- The fallback fires at position `n`: the monitor is at the bounded wait
and that wait times out. -/
def monFallbackAt (s0 : UdpState) (es : List MonEvent) (n : Nat) : Prop :=
  monPhaseAfter s0 es n = .bounded ∧ es[n]? = some .timedOut

theorem UdpListenerMode.monitor_run_append (s : UdpState) (p : MonPhase)
    (xs ys : List MonEvent) :
    UdpListenerMode.monitor_run s p (xs ++ ys) =
      UdpListenerMode.monitor_run (UdpListenerMode.monitor_run s p xs).1
        (UdpListenerMode.monitor_run s p xs).2 ys := by
  induction xs generalizing s p with
  | nil => rfl
  | cons x xs ih => simp [UdpListenerMode.monitor_run, ih]

theorem monAfter_succ (s0 : UdpState) (es : List MonEvent) (n : Nat) (e : MonEvent)
    (he : es[n]? = some e) :
    monPhaseAfter s0 es (n + 1) =
      (UdpListenerMode.monitor_step (monStateAfter s0 es n) (monPhaseAfter s0 es n) e).2 ∧
    monStateAfter s0 es (n + 1) =
      (UdpListenerMode.monitor_step (monStateAfter s0 es n) (monPhaseAfter s0 es n) e).1 := by
  unfold monPhaseAfter monStateAfter
  rw [List.take_succ, he, UdpListenerMode.monitor_run_append]
  exact ⟨rfl, rfl⟩

/-- C4: When the bounded wait times out at position i (a fallback), the
monitor has run `_update(Lights.AMBER)` — so the last-known state right
after position i is AMBER, written exactly by that one step — and sits in
the indefinite wait; for a second fallback to occur at a later position j,
some wait strictly between them must have been signaled (a datagram
arrived), and that signal returns the monitor to the bounded-wait loop.
Hence the fallback fires at most once per silence period. -/
theorem C4_fallback_once_per_silence (s0 : UdpState) (es : List MonEvent) (i j : Nat)
    (hv : MonValidTrace s0 es) (hij : i < j)
    (hi : monFallbackAt s0 es i) (hj : monFallbackAt s0 es j) :
    monStateAfter s0 es (i + 1) =
      UdpListenerMode._update (monStateAfter s0 es i) Lights.AMBER ∧
    (monStateAfter s0 es (i + 1)).lights = Lights.AMBER ∧
    monPhaseAfter s0 es (i + 1) = .blocked ∧
    ∃ m, i < m ∧ m < j ∧ es[m]? = some .signaled ∧
      monPhaseAfter s0 es (m + 1) = .bounded := by
  have hstep := monAfter_succ s0 es i .timedOut hi.2
  have hblocked : monPhaseAfter s0 es (i + 1) = .blocked := by
    rw [hstep.1, hi.1]
    rfl
  have hupd : monStateAfter s0 es (i + 1) =
      UdpListenerMode._update (monStateAfter s0 es i) Lights.AMBER := by
    rw [hstep.2, hi.1]
    rfl
  refine ⟨hupd, by rw [hupd]; rfl, hblocked, ?_⟩
  have hjlen : j < es.length := by
    rcases List.getElem?_eq_some.mp hj.2 with ⟨h, _⟩
    exact h
  have hij1 : i + 1 < j := by
    rcases Nat.lt_or_ge (i + 1) j with h | h
    · exact h
    · exfalso
      have heq : i + 1 = j := by omega
      rw [← heq] at hj
      exact MonPhase.noConfusion (hj.1.symm.trans hblocked)
  have hlen1 : i + 1 < es.length := lt_trans hij1 hjlen
  have hget : es[i + 1]? = some es[i + 1] := List.getElem?_eq_getElem hlen1
  cases he : es[i + 1] with
  | signaled =>
      rw [he] at hget
      have hstep2 := monAfter_succ s0 es (i + 1) .signaled hget
      refine ⟨i + 1, Nat.lt_succ_self i, hij1, hget, ?_⟩
      rw [hstep2.1, hblocked]
      rfl
  | timedOut =>
      rw [he] at hget
      exact absurd hget (hv (i + 1) hlen1 hblocked)

theorem C4_fallback_once_per_silence_witness :
    MonValidTrace UdpListenerMode.init [.timedOut, .signaled, .timedOut] ∧
    monStateAfter UdpListenerMode.init [.timedOut, .signaled, .timedOut] 1 =
      UdpListenerMode._update
        (monStateAfter UdpListenerMode.init [.timedOut, .signaled, .timedOut] 0)
        Lights.AMBER ∧
    (monStateAfter UdpListenerMode.init [.timedOut, .signaled, .timedOut] 1).lights =
      Lights.AMBER ∧
    monPhaseAfter UdpListenerMode.init [.timedOut, .signaled, .timedOut] 1 = .blocked ∧
    ∃ m, 0 < m ∧ m < 2 ∧
      ([MonEvent.timedOut, .signaled, .timedOut][m]? = some .signaled) ∧
      monPhaseAfter UdpListenerMode.init [.timedOut, .signaled, .timedOut] (m + 1) =
        .bounded := by
  have hv : MonValidTrace UdpListenerMode.init [.timedOut, .signaled, .timedOut] := by
    unfold MonValidTrace
    decide
  have h := C4_fallback_once_per_silence UdpListenerMode.init
    [.timedOut, .signaled, .timedOut] 0 2 hv (by decide) ⟨rfl, rfl⟩ ⟨by decide, rfl⟩
  exact ⟨hv, h.1, h.2.1, h.2.2.1, h.2.2.2⟩

/-- Position of the `SequenceMode` worker thread (main.py lines 50-54)
between its atomic actions: `waiting` is the blocking
`self._on_activated.wait()` at line 51; `sleeping` is the rest of an
iteration after the `set` call — the `sleep(interval)` at line 54, which
runs to completion whatever happens to the flag. -/
inductive WorkerPc where
  | waiting
  | sleeping
  deriving DecidableEq

/-- State of the `SequenceMode` worker: program position, number of items
pulled from the `lights_intervals` iterator so far, and the reified list of
`set` calls made. -/
structure SeqWorker (τ : Type) where
  pc : WorkerPc
  k : Nat
  out : List τ
  deriving DecidableEq

/-- One small step of the worker loop (main.py lines 50-54), given the
current value of the `_on_activated` flag.  At `waiting` with the flag set,
the worker pulls `next(...)`, applies the step (`set`) and starts the pause;
`next` past the end of the iterator raises (`none`).  At `waiting` with the
flag clear the worker stays blocked.  From `sleeping` the pause always
completes back to `waiting`; the flag is not consulted. -/
def SequenceMode.worker_step {τ : Type} (seq : Nat → Option τ) (on_activated : Bool)
    (w : SeqWorker τ) : Option (SeqWorker τ) :=
  match w.pc with
  | .waiting =>
      if on_activated then
        match seq w.k with
        | some item => some { pc := .sleeping, k := w.k + 1, out := w.out ++ [item] }
        | none => none
      else
        some w
  | .sleeping => some { w with pc := .waiting }

/-- Run the worker through a list of flag values, one per small step. -/
def SequenceMode.worker_run {τ : Type} (seq : Nat → Option τ) :
    List Bool → SeqWorker τ → Option (SeqWorker τ)
  | [], w => some w
  | b :: bs, w =>
      match SequenceMode.worker_step seq b w with
      | some w2 => SequenceMode.worker_run seq bs w2
      | none => none

/-- C8: the worker consults the activation flag only between steps.  A
worker mid-pause takes the same step whatever the flag is, completing the
pause (so an `exit()` during the pause changes nothing about that step —
after a quick exit/enter round-trip the run is identical to one with no
exit, leaving at most the one in-flight step stale); and a step can extend
the output only from `waiting` with the flag true, by applying the next
iterator item. -/
theorem C8_flag_checked_only_between_steps {τ : Type} (seq : Nat → Option τ)
    (w : SeqWorker τ) :
    (w.pc = .sleeping →
      (∀ b : Bool, SequenceMode.worker_step seq b w = some { w with pc := .waiting }) ∧
      (∀ bs : List Bool,
        SequenceMode.worker_run seq (false :: bs) w =
          SequenceMode.worker_run seq (true :: bs) w)) ∧
    (∀ (b : Bool) (w2 : SeqWorker τ), SequenceMode.worker_step seq b w = some w2 →
      w2.out ≠ w.out →
      w.pc = .waiting ∧ b = true ∧
        ∃ item, seq w.k = some item ∧ w2.out = w.out ++ [item]) := by
  constructor
  · intro hpc
    constructor
    · intro b
      simp [SequenceMode.worker_step, hpc]
    · intro bs
      simp [SequenceMode.worker_run, SequenceMode.worker_step, hpc]
  · intro b w2 hstep hout
    cases hpc : w.pc with
    | waiting =>
        cases b with
        | false =>
            simp [SequenceMode.worker_step, hpc] at hstep
            rw [hstep] at hout
            exact absurd rfl hout
        | true =>
            refine ⟨rfl, rfl, ?_⟩
            cases hseq : seq w.k with
            | none => simp [SequenceMode.worker_step, hpc, hseq] at hstep
            | some item =>
                simp [SequenceMode.worker_step, hpc, hseq] at hstep
                exact ⟨item, rfl, by rw [← hstep]⟩
    | sleeping =>
        simp [SequenceMode.worker_step, hpc] at hstep
        rw [← hstep] at hout
        exact absurd rfl hout

theorem C8_flag_checked_only_between_steps_witness :
    SequenceMode.worker_step (fun n => some n) false
        ({ pc := .sleeping, k := 0, out := [] } : SeqWorker Nat) =
      some { pc := .waiting, k := 0, out := [] } ∧
    SequenceMode.worker_run (fun n => some n) [false, true]
        ({ pc := .sleeping, k := 0, out := [] } : SeqWorker Nat) =
      SequenceMode.worker_run (fun n => some n) [true, true]
        { pc := .sleeping, k := 0, out := [] } :=
  ⟨((C8_flag_checked_only_between_steps (fun n => some n)
      { pc := .sleeping, k := 0, out := [] }).1 rfl).1 false,
   ((C8_flag_checked_only_between_steps (fun n => some n)
      { pc := .sleeping, k := 0, out := [] }).1 rfl).2 [true]⟩

/-- Value of the index variable `i` of `looped_sequence` (main.py lines
122-126) when the k-th `yield` executes: `i` starts at 0 and becomes
`(i+1) % len(l)` after each yield. -/
def looped_sequence_index {τ : Type} (l : List τ) : Nat → Nat
  | 0 => 0
  | k + 1 => (looped_sequence_index l k + 1) % l.length

/-- The k-th value the `looped_sequence` generator yields, i.e. `l[i]` at
the k-th yield; `none` models the IndexError raised when the subscript is
out of range (the empty list). -/
def looped_sequence {τ : Type} (l : List τ) (k : Nat) : Option τ :=
  l[looped_sequence_index l k]?

theorem looped_sequence_index_eq {τ : Type} (l : List τ) (k : Nat) :
    looped_sequence_index l k = k % l.length := by
  induction k with
  | zero => simp [looped_sequence_index]
  | succ k ih =>
      rw [looped_sequence_index, ih]
      simp [Nat.add_mod]

theorem looped_sequence_isSome {τ : Type} (l : List τ) (hl : l ≠ []) (k : Nat) :
    (looped_sequence l k).isSome = true := by
  rw [looped_sequence, looped_sequence_index_eq,
    List.getElem?_eq_getElem (Nat.mod_lt _ (List.length_pos.mpr hl))]
  rfl

/-- C9: for a non-empty list l, the k-th pulled pair of the looping
producer is l[k mod len(l)] — the elements of l forever in list order, the
position advancing by modulo on the fixed length and never resetting — and
every pull yields a value. -/
theorem C9_looped_sequence_cycles_in_order {τ : Type} (l : List τ) (hl : l ≠ [])
    (k : Nat) :
    looped_sequence_index l k = k % l.length ∧
    looped_sequence l k = l[k % l.length]? ∧
    (looped_sequence l k).isSome = true := by
  refine ⟨looped_sequence_index_eq l k, ?_, looped_sequence_isSome l hl k⟩
  rw [looped_sequence, looped_sequence_index_eq]

theorem C9_looped_sequence_cycles_in_order_witness :
    ([10, 20, 30] : List Nat) ≠ [] ∧ looped_sequence ([10, 20, 30] : List Nat) 4 = some 20 :=
  ⟨by decide, by
    have h := (C9_looped_sequence_cycles_in_order ([10, 20, 30] : List Nat) (by decide) 4).2.1
    rw [h]
    decide⟩

/-- C10: non-emptiness is an unstated precondition of `looped_sequence`:
on the empty list every pull — in particular the first — raises IndexError
(`none`) instead of yielding, so a SequenceMode worker over the empty list
crashes on its first activated step; on any non-empty list every pull
yields a value. -/
theorem C10_empty_list_first_pull_fails :
    (∀ k, looped_sequence ([] : List (Lights × ℚ)) k = none) ∧
    SequenceMode.worker_step (looped_sequence ([] : List (Lights × ℚ))) true
      { pc := .waiting, k := 0, out := [] } = none ∧
    (∀ l : List (Lights × ℚ), l ≠ [] → ∀ k, (looped_sequence l k).isSome = true) := by
  refine ⟨?_, rfl, ?_⟩
  · intro k
    simp [looped_sequence]
  · intro l hl k
    exact looped_sequence_isSome l hl k

theorem C10_empty_list_first_pull_fails_witness :
    ([(Lights.RED, (1 : ℚ))] : List (Lights × ℚ)) ≠ [] ∧
    (looped_sequence ([(Lights.RED, (1 : ℚ))] : List (Lights × ℚ)) 5).isSome = true :=
  ⟨by decide,
   C10_empty_list_first_pull_fails.2.2 [(Lights.RED, (1 : ℚ))] (by decide) 5⟩
